import Mathlib

/-!
Verification of the MCP chat front-end (src/main.py): the connection registry,
first-match tool resolution, the tool invoker, the OpenAI schema adapter, the
two-phase model gateway and the orchestration loop, shallowly embedded in Lean.
-/

set_option maxRecDepth 8000

namespace MCPChat

/-- JSON values: the payload type for tool input schemas, parsed tool arguments
and tool results flowing through the app. -/
inductive Json where
| null : Json
| bool (b : Bool) : Json
| num (n : Int) : Json
| str (s : String) : Json
| arr (items : List Json) : Json
| obj (fields : List (String × Json)) : Json

/-- One tool as discovered from an MCP server by session.list_tools. -/
structure MCPTool where
  name : String
  description : String
  inputSchema : Json

/-- Stored tool metadata record built in on_mcp_connect (src/main.py lines 51 to 56). -/
structure ToolMeta where
  name : String
  description : String
  input_schema : Json
  mcp_connection_name : String

/-- The user-session registry: the Python dict mcp_tools mapping a connection
name to that connection's tool metadata list, kept in insertion order. -/
abbrev Registry := List (String × List ToolMeta)

/-- Python dict assignment d[k] = v on an insertion-ordered dict with unique
keys: an existing key keeps its position, a new key goes to the end. -/
def dictAssign (reg : Registry) (k : String) (v : List ToolMeta) : Registry :=
  if reg.any (fun p => p.1 == k) then
    reg.map (fun p => if p.1 == k then (k, v) else p)
  else
    reg ++ [(k, v)]

/-- Registry update performed by on_mcp_connect (src/main.py lines 41 to 68):
on a successful list_tools the connection's metadata list is stored under the
connection name; when list_tools raises, the handler only reports the error and
the registry is left untouched. -/
def on_mcp_connect (reg : Registry) (connName : String)
    (listResult : Except String (List MCPTool)) : Registry :=
  match listResult with
  | .error _ => reg
  | .ok ts =>
      dictAssign reg connName
        (ts.map (fun t => ⟨t.name, t.description, t.inputSchema, connName⟩))

/-- Registry update performed by on_mcp_disconnect (src/main.py lines 70 to 79):
delete the entry when the name is a key, otherwise do nothing. -/
def on_mcp_disconnect (reg : Registry) (name : String) : Registry :=
  if reg.any (fun p => p.1 == name) then reg.filter (fun p => p.1 != name) else reg

/-- First-match scan of call_mcp_tool (src/main.py lines 106 to 111): the first
connection, in registry iteration order, whose tool list holds the name. -/
def resolve (reg : Registry) (tool_name : String) : Option String :=
  (reg.find? (fun p => p.2.any (fun t => t.name == tool_name))).map (fun p => p.1)

/-- Connections owning a tool name, in registry iteration order. -/
def owners : Registry → String → List String
  | [], _ => []
  | p :: l, n => if p.2.any (fun t => t.name == n) then p.1 :: owners l n else owners l n

/-- Keys of the registry in iteration order. -/
def keys (reg : Registry) : List String := reg.map (fun p => p.1)

/-- Lowercase hexadecimal digit character. -/
def hexDigit (n : Nat) : Char :=
  if n < 10 then Char.ofNat (48 + n) else Char.ofNat (87 + n)

/-- Four-digit lowercase hexadecimal rendering used in JSON unicode escapes. -/
def hex4 (n : Nat) : List Char :=
  [hexDigit (n / 4096 % 16), hexDigit (n / 256 % 16), hexDigit (n / 16 % 16), hexDigit (n % 16)]

/-- Escape of one character under Python json.dumps with its default
ensure_ascii=True: printable ASCII other than quote and backslash is kept,
everything else is escaped. -/
def escapeChar (c : Char) : List Char :=
  if c = '"' then ['\\', '"']
  else if c = '\\' then ['\\', '\\']
  else if c = '\n' then ['\\', 'n']
  else if c = '\r' then ['\\', 'r']
  else if c = '\t' then ['\\', 't']
  else if c.toNat = 8 then ['\\', 'b']
  else if c.toNat = 12 then ['\\', 'f']
  else if 32 ≤ c.toNat ∧ c.toNat ≤ 126 then [c]
  else if c.toNat ≤ 65535 then '\\' :: 'u' :: hex4 c.toNat
  else ('\\' :: 'u' :: hex4 (55296 + (c.toNat - 65536) / 1024)) ++
       ('\\' :: 'u' :: hex4 (56320 + (c.toNat - 65536) % 1024))

/-- JSON string-escape of a character list. -/
def escapeData : List Char → List Char
  | [] => []
  | c :: cs => escapeChar c ++ escapeData cs

/-- JSON string-escape of a string, as performed by json.dumps on str values. -/
def jsonEscape (s : String) : String := ⟨escapeData s.data⟩

/-- Model of json.dumps applied to the one-field dict with key error, the shape
every error return of call_mcp_tool and the unsupported-tool-type message use. -/
def dumpsErrorObj (msg : String) : String :=
  ⟨("\x7b\"error\": \"").data ++ escapeData msg.data ++ ("\"\x7d").data⟩

/-- The function part of an OpenAI tool call: the tool name plus the raw JSON
argument string produced by the model. -/
structure ToolCallFunction where
  name : String
  arguments : String

/-- An OpenAI tool call as delivered inside an assistant message. -/
structure ToolCall where
  id : String
  type : String
  function : ToolCallFunction

/-- External collaborators of call_mcp_tool other than json.loads: the live
session table cl.context.session.mcp_sessions, the MCP call_tool transport, and
the Python serializers str and json.dumps with indent=2. -/
structure InvokeEnv where
  hasSession : String → Bool
  call_tool : String → String → Json → Except String Json
  str_of : Json → String
  dumps_indent2 : Json → String

/-- Whether isinstance(result, (dict, list)) holds of a result value. -/
def isStructured : Json → Bool
  | .obj _ => true
  | .arr _ => true
  | _ => false

/-- The UI step record written by call_mcp_tool. -/
structure StepOut where
  name : String
  input : Option Json
  output : String
  is_error : Bool

/-- call_mcp_tool (src/main.py lines 82 to 151), with json.loads passed in
explicitly: returns the string handed back to the model, paired with the UI
step record. The check on line 113 is Python truthiness, so a connection named
by the empty string is also treated as not found. -/
def call_mcp_tool (loads : String → Option Json) (env : InvokeEnv) (reg : Registry)
    (tc : ToolCall) : String × StepOut :=
  let tool_name := tc.function.name
  match loads tc.function.arguments with
  | none =>
    let error_msg := ("Error: Invalid JSON arguments received for tool ") ++ tool_name ++
      (": ") ++ tc.function.arguments
    (dumpsErrorObj error_msg, ⟨tool_name, none, dumpsErrorObj error_msg, true⟩)
  | some tool_input =>
    match resolve reg tool_name with
    | none =>
      let error_msg := ("Tool \x27") ++ tool_name ++ ("\x27 not found in any active MCP connection.")
      (dumpsErrorObj error_msg, ⟨tool_name, some tool_input, dumpsErrorObj error_msg, true⟩)
    | some conn =>
      if conn = "" then
        let error_msg := ("Tool \x27") ++ tool_name ++ ("\x27 not found in any active MCP connection.")
        (dumpsErrorObj error_msg, ⟨tool_name, some tool_input, dumpsErrorObj error_msg, true⟩)
      else if env.hasSession conn = false then
        let error_msg := ("Active MCP session for connection \x27") ++ conn ++ ("\x27 not found.")
        (dumpsErrorObj error_msg, ⟨tool_name, some tool_input, dumpsErrorObj error_msg, true⟩)
      else
        match env.call_tool conn tool_name tool_input with
        | .ok result =>
          let display := if isStructured result then env.dumps_indent2 result else env.str_of result
          (env.str_of result, ⟨tool_name, some tool_input, display, false⟩)
        | .error e =>
          let error_msg := ("Error executing MCP tool \x27") ++ tool_name ++ ("\x27: ") ++ e
          (dumpsErrorObj error_msg, ⟨tool_name, some tool_input, dumpsErrorObj error_msg, true⟩)

/-- Helper to flatten nested lists (src/main.py lines 37 to 39). -/
def flatten {α : Type} : List (List α) → List α
  | [] => []
  | xs :: xss => xs ++ flatten xss

/-- Function part of one OpenAI tools-array declaration. -/
structure OpenAIFunctionDecl where
  name : String
  description : String
  parameters : Json

/-- One element of the OpenAI tools array. -/
structure OpenAIToolDecl where
  type : String
  function : OpenAIFunctionDecl

/-- format_mcp_tools_for_openai (src/main.py lines 153 to 170). -/
def format_mcp_tools_for_openai (reg : Registry) : List OpenAIToolDecl :=
  (flatten (reg.map (fun p => p.2))).map
    (fun tool_meta => ⟨"function", ⟨tool_meta.name, tool_meta.description, tool_meta.input_schema⟩⟩)

/-- An assistant message as returned by the chat completions API: optional text
content and an optional tool-call list. -/
structure AssistantMessage where
  content : Option String
  tool_calls : Option (List ToolCall)

/-- One entry of the chat history list. -/
inductive Message where
| system (content : String) : Message
| user (content : String) : Message
| assistant (m : AssistantMessage) : Message
| tool (tool_call_id : String) (content : String) : Message

/-- Truthiness test of assistant_response_message.tool_calls on line 274: both
None and the empty list read as carrying no tool calls. -/
def hasToolCalls (m : AssistantMessage) : Bool :=
  match m.tool_calls with
  | none => false
  | some tcs => !tcs.isEmpty

/-- One scripted behaviour of the model endpoint for one call_gemini call: the
streamed deltas that arrived, whether the streaming phase then raised, and the
outcome of the second, non-streaming request. -/
structure GatewayScript where
  deltas : List (Option String)
  streamErr : Option String
  final : Except String AssistantMessage

/-- Observable outcome of call_gemini: its return value, whether a visible
streamed message was created, the text streamed into it, and whether an error
message was shown instead. -/
structure GeminiOutcome where
  result : Option AssistantMessage
  message_sent : Bool
  streamed_text : String
  error_shown : Bool

/-- call_gemini (src/main.py lines 172 to 240) against a scripted endpoint:
stream truthy deltas into a UI message created on first such delta, then return
the message of the non-streaming call; on an exception in either phase return
none, showing an error message only when no streamed message exists. -/
def call_gemini (s : GatewayScript) : GeminiOutcome :=
  let sent := s.deltas.any (fun d => d.getD "" != "")
  let text : String := ⟨flatten (s.deltas.map (fun d => (d.getD "").data))⟩
  match s.streamErr with
  | some _ => ⟨none, sent, text, !sent⟩
  | none =>
    match s.final with
    | .error _ => ⟨none, sent, text, !sent⟩
    | .ok m => ⟨some m, sent, text, false⟩

/-- Outcome of one on_message turn: the model answered with no tool calls, the
gateway failed, or the scripted endpoint ran out of responses. -/
inductive TurnOutcome where
| success : TurnOutcome
| gatewayFailure : TurnOutcome
| exhausted : TurnOutcome
deriving DecidableEq

/-- Tool message built for one tool call inside the loop (lines 283 to 301):
function-typed calls are invoked, any other type gets a structured
unsupported-tool-type error without invoking anything. -/
def toolMessageFor (loads : String → Option Json) (env : InvokeEnv) (reg : Registry)
    (tc : ToolCall) : Message :=
  if tc.type = "function" then Message.tool tc.id (call_mcp_tool loads env reg tc).1
  else Message.tool tc.id (dumpsErrorObj (("Unsupported tool type: ") ++ tc.type))

/-- Messages appended to history by one loop iteration whose assistant message
requested tool calls: the assistant message followed by one tool message per
call, in declared order. -/
def turnBlock (loads : String → Option Json) (env : InvokeEnv) (reg : Registry)
    (m : AssistantMessage) : List Message :=
  Message.assistant m :: (m.tool_calls.getD []).map (toolMessageFor loads env reg)

/-- The while-loop of on_message (src/main.py lines 259 to 307), driven by one
GatewayScript per iteration; exhausted marks runs longer than the script list. -/
def runTurn (loads : String → Option Json) (env : InvokeEnv) (reg : Registry) :
    List GatewayScript → List Message → List Message × TurnOutcome
  | [], hist => (hist, TurnOutcome.exhausted)
  | s :: rest, hist =>
    match (call_gemini s).result with
    | none => (hist, TurnOutcome.gatewayFailure)
    | some m =>
      if hasToolCalls m then
        runTurn loads env reg rest
          ((hist ++ [Message.assistant m]) ++ (m.tool_calls.getD []).map (toolMessageFor loads env reg))
      else (hist ++ [Message.assistant m], TurnOutcome.success)

/-- on_message (src/main.py lines 250 to 312): append the user message to the
history, then run the loop. -/
def on_message (loads : String → Option Json) (env : InvokeEnv) (reg : Registry)
    (scripts : List GatewayScript) (hist : List Message) (userText : String) :
    List Message × TurnOutcome :=
  runTurn loads env reg scripts (hist ++ [Message.user userText])

/-- Identifier carried by a history entry when it is a tool message. -/
def toolMsgId : Message → String
  | Message.tool i _ => i
  | _ => ""

/-- Substring containment, stated over the underlying character lists. -/
abbrev ContainsStr (s pat : String) : Prop := pat.data <:+: s.data

/-! Concrete data used by the witnesses. -/

/-- A json.loads stand-in that fails on every input. -/
def loadsNone : String → Option Json := fun _ => none

/-- A json.loads stand-in that succeeds on every input. -/
def loadsOk : String → Option Json := fun _ => some Json.null

/-- An environment with no live sessions and a failing transport. -/
def envW : InvokeEnv := ⟨fun _ => false, fun _ _ _ => Except.error "", fun _ => "", fun _ => ""⟩

/-- An environment whose transport returns the string result 42. -/
def envOk : InvokeEnv :=
  ⟨fun _ => true, fun _ _ _ => Except.ok (Json.str ("42")), fun _ => "42", fun _ => "indented"⟩

/-- Tool named search owned by connection a. -/
def tmSearchA : ToolMeta := ⟨"search", "d1", Json.null, "a"⟩

/-- Tool named search owned by connection b. -/
def tmSearchB : ToolMeta := ⟨"search", "d2", Json.null, "b"⟩

/-- Tool named weather owned by connection b only. -/
def tmWeatherB : ToolMeta := ⟨"weather", "d3", Json.null, "b"⟩

/-- Registry with two connections that both expose a tool named search. -/
def regW : Registry := [("a", [tmSearchA]), ("b", [tmSearchB, tmWeatherB])]

/-- Discovered tool list re-announcing search on reconnect of connection a. -/
def tsSearch : List MCPTool := [⟨"search", "d1", Json.null⟩]

/-- Registry with a single connection owning the tool named lookup. -/
def regOne : Registry := [("a", [⟨"lookup", "d", Json.null, "a"⟩])]

/-- Tool call for lookup with arguments the model produced. -/
def tcLookup : ToolCall := ⟨"c1", "function", ⟨"lookup", "null"⟩⟩

/-- Tool call whose arguments are not valid JSON and contain a quote. -/
def tcBad : ToolCall := ⟨"call_1", "function", ⟨"t", "x\"y"⟩⟩

/-- Assistant message requesting one function tool call. -/
def mCalls : AssistantMessage := ⟨some "calling", some [tcLookup]⟩

/-- Assistant message with no tool calls. -/
def mDone : AssistantMessage := ⟨some "done", none⟩

/-- Gateway script that streams nothing and answers with the given message. -/
def scrOf (m : AssistantMessage) : GatewayScript := ⟨[], none, Except.ok m⟩

/-- Gateway script that streams one token and answers with mDone. -/
def scrW : GatewayScript := ⟨[some "hi"], none, Except.ok mDone⟩

/-- Gateway script whose streaming phase raises. -/
def scrFail : GatewayScript := ⟨[], some "boom", Except.error "x"⟩

/-! Helper lemmas. -/

theorem escapeData_append (l₁ l₂ : List Char) :
    escapeData (l₁ ++ l₂) = escapeData l₁ ++ escapeData l₂ := by
  induction l₁ with
  | nil => rfl
  | cons c cs ih => simp [escapeData, ih, List.append_assoc]

theorem find?_owner_cons_pos (p : String × List ToolMeta) (l : List (String × List ToolMeta))
    (n : String) (hp : p.2.any (fun t => t.name == n) = true) :
    List.find? (fun q => q.2.any (fun t => t.name == n)) (p :: l) = some p :=
  List.find?_cons_of_pos l hp

theorem find?_owner_cons_neg (p : String × List ToolMeta) (l : List (String × List ToolMeta))
    (n : String) (hp : ¬ p.2.any (fun t => t.name == n) = true) :
    List.find? (fun q => q.2.any (fun t => t.name == n)) (p :: l)
      = List.find? (fun q => q.2.any (fun t => t.name == n)) l :=
  List.find?_cons_of_neg l hp

theorem resolve_eq_head_owners (reg : Registry) (n : String) :
    resolve reg n = (owners reg n).head? := by
  induction reg with
  | nil => rfl
  | cons p l ih =>
    unfold resolve at ih ⊢
    simp only [owners]
    by_cases hp : p.2.any (fun t => t.name == n) = true
    · rw [find?_owner_cons_pos p l n hp, if_pos hp]
      rfl
    · rw [find?_owner_cons_neg p l n hp, if_neg hp]
      exact ih

theorem mem_owners_key (reg : Registry) (n x : String) (h : x ∈ owners reg n) :
    reg.any (fun p => p.1 == x) = true := by
  induction reg with
  | nil => simp [owners] at h
  | cons p l ih =>
    simp only [owners] at h
    rw [List.any_cons]
    by_cases hp : p.2.any (fun t => t.name == n) = true
    · rw [if_pos hp] at h
      rcases List.mem_cons.mp h with h1 | h2
      · rw [beq_iff_eq.mpr h1.symm]
        rfl
      · rw [ih h2, Bool.or_true]
    · rw [if_neg hp] at h
      rw [ih h, Bool.or_true]

theorem owners_filter_ne (reg : Registry) (c n : String) :
    owners (reg.filter (fun p => p.1 != c)) n = (owners reg n).filter (fun x => x != c) := by
  induction reg with
  | nil => rfl
  | cons p l ih =>
    by_cases hk : p.1 = c
    · have h1 : List.filter (fun p => p.1 != c) (p :: l) = List.filter (fun p => p.1 != c) l := by
        rw [List.filter_cons, if_neg (by simp [hk])]
      rw [h1, ih]
      by_cases hp : p.2.any (fun t => t.name == n) = true
      · simp only [owners]
        rw [if_pos hp, List.filter_cons, if_neg (by simp [hk])]
      · simp only [owners]
        rw [if_neg hp]
    · have h1 : List.filter (fun p => p.1 != c) (p :: l) = p :: List.filter (fun p => p.1 != c) l := by
        rw [List.filter_cons, if_pos (by simp [hk])]
      rw [h1]
      by_cases hp : p.2.any (fun t => t.name == n) = true
      · simp only [owners]
        rw [if_pos hp, if_pos hp, List.filter_cons, if_pos (by simp [hk]), ih]
      · simp only [owners]
        rw [if_neg hp, if_neg hp, ih]

theorem owners_disconnect (reg : Registry) (c n : String) :
    owners (on_mcp_disconnect reg c) n = (owners reg n).filter (fun x => x != c) := by
  unfold on_mcp_disconnect
  by_cases h : reg.any (fun p => p.1 == c) = true
  · rw [if_pos h, owners_filter_ne]
  · rw [if_neg h, eq_comm, List.filter_eq_self]
    intro x hx
    have hk := mem_owners_key reg n x hx
    rw [bne_iff_ne]
    intro hxc
    exact h (hxc ▸ hk)

theorem resolve_some_key (reg : Registry) (n c : String) (h : resolve reg n = some c) :
    reg.any (fun p => p.1 == c) = true := by
  unfold resolve at h
  obtain ⟨p, hp, hpc⟩ := Option.map_eq_some'.mp h
  exact List.any_eq_true.mpr ⟨p, List.mem_of_find?_eq_some hp, by simp [hpc]⟩

theorem resolve_append_of_some (l l₂ : Registry) (n c : String)
    (h : resolve l n = some c) : resolve (l ++ l₂) n = some c := by
  unfold resolve at h ⊢
  obtain ⟨p, hp, hpc⟩ := Option.map_eq_some'.mp h
  rw [List.find?_append, hp]
  simpa using hpc

theorem any_key_disconnect (reg : Registry) (c : String) :
    (on_mcp_disconnect reg c).any (fun p => p.1 == c) = false := by
  unfold on_mcp_disconnect
  by_cases h : reg.any (fun p => p.1 == c) = true
  · rw [if_pos h, List.any_filter]
    rw [List.any_eq_false]
    intro p hp
    by_cases hc : p.1 = c <;> simp [hc]
  · rw [if_neg h]
    cases hb : reg.any (fun p => p.1 == c) with
    | false => rfl
    | true => exact absurd hb h

theorem resolve_assign_same (v : List ToolMeta) (n c : String)
    (hv : v.any (fun t => t.name == n) = true) :
    ∀ reg : Registry, resolve reg n = some c →
      resolve (reg.map (fun p => if p.1 == c then (c, v) else p)) n = some c := by
  intro reg
  induction reg with
  | nil => intro h; simp [resolve] at h
  | cons p l ih =>
    intro h
    by_cases hk : p.1 = c
    · unfold resolve
      rw [List.map_cons, if_pos (by simp [hk]), find?_owner_cons_pos (c, v) _ n hv]
      rfl
    · unfold resolve at h ⊢
      by_cases hp : p.2.any (fun t => t.name == n) = true
      · rw [find?_owner_cons_pos p l n hp] at h
        rw [Option.map_some'] at h
        exact absurd (Option.some.inj h) hk
      · rw [find?_owner_cons_neg p l n hp] at h
        rw [List.map_cons, if_neg (by simp [hk]), find?_owner_cons_neg p _ n hp]
        exact ih h

theorem any_name_map (ts : List MCPTool) (cn n : String) :
    (ts.map (fun t => (⟨t.name, t.description, t.inputSchema, cn⟩ : ToolMeta))).any
        (fun t => t.name == n) = ts.any (fun t => t.name == n) := by
  induction ts with
  | nil => rfl
  | cons t l ih => simp [List.any_cons, ih]

theorem keys_assign_of_mem (reg : Registry) (c : String) (v : List ToolMeta)
    (h : reg.any (fun p => p.1 == c) = true) : keys (dictAssign reg c v) = keys reg := by
  unfold dictAssign keys
  rw [if_pos h, List.map_map]
  refine List.map_congr_left (fun p _ => ?_)
  simp only [Function.comp_apply]
  split
  · next h' => exact (beq_iff_eq.mp h').symm
  · rfl

/-! Claim theorems. -/

/-- Claim C1: tool-name resolution is a first-match scan in registry iteration
order: a name owned by exactly one connection resolves to it, a name owned by
two connections resolves to the first of the two, after unregistering a
connection every tool name it owned exclusively resolves to NotFound, and
unregistering an absent connection leaves the registry unchanged. -/
theorem resolve_first_match_correct (reg : Registry) (n : String) :
    (∀ c, owners reg n = [c] → resolve reg n = some c)
    ∧ (∀ c₁ c₂, owners reg n = [c₁, c₂] → resolve reg n = some c₁)
    ∧ (∀ c, owners reg n = [c] → resolve (on_mcp_disconnect reg c) n = none)
    ∧ (∀ c, reg.any (fun p => p.1 == c) = false → on_mcp_disconnect reg c = reg) := by
  refine ⟨?_, ?_, ?_, ?_⟩
  · intro c h
    rw [resolve_eq_head_owners, h]
    rfl
  · intro c₁ c₂ h
    rw [resolve_eq_head_owners, h]
    rfl
  · intro c h
    rw [resolve_eq_head_owners, owners_disconnect, h]
    simp
  · intro c h
    unfold on_mcp_disconnect
    rw [if_neg (by simp [h])]

theorem resolve_first_match_correct_witness :
    resolve regW ("search") = some ("a")
    ∧ resolve (on_mcp_disconnect regW ("b")) ("weather") = none :=
  ⟨(resolve_first_match_correct regW ("search")).2.1 ("a") ("b") (by decide),
   (resolve_first_match_correct regW ("weather")).2.2.1 ("b") (by decide)⟩

/-- Claim C9: resolution priority follows dict insertion order: re-registering
a connected connection keeps its key position and its first-match priority,
while disconnect followed by reconnect appends the connection at the end of
the iteration order, so any tool name it shares with a remaining connection
now resolves to that other connection. -/
theorem reconnect_order_priority (reg : Registry) (c n : String) (ts : List MCPTool) :
    (reg.any (fun p => p.1 == c) = true →
      keys (on_mcp_connect reg c (Except.ok ts)) = keys reg)
    ∧ (resolve reg n = some c → ts.any (fun t => t.name == n) = true →
      resolve (on_mcp_connect reg c (Except.ok ts)) n = some c)
    ∧ keys (on_mcp_connect (on_mcp_disconnect reg c) c (Except.ok ts))
        = keys (on_mcp_disconnect reg c) ++ [c]
    ∧ (∀ c₂, resolve (on_mcp_disconnect reg c) n = some c₂ →
      resolve (on_mcp_connect (on_mcp_disconnect reg c) c (Except.ok ts)) n = some c₂ ∧ c₂ ≠ c) := by
  refine ⟨?_, ?_, ?_, ?_⟩
  · intro h
    simp only [on_mcp_connect]
    exact keys_assign_of_mem reg c _ h
  · intro h hts
    simp only [on_mcp_connect]
    unfold dictAssign
    rw [if_pos (resolve_some_key reg n c h)]
    exact resolve_assign_same _ n c (by rw [any_name_map]; exact hts) reg h
  · simp only [on_mcp_connect]
    unfold dictAssign
    rw [if_neg (by simp [any_key_disconnect])]
    unfold keys
    rw [List.map_append]
    rfl
  · intro c₂ h
    simp only [on_mcp_connect]
    unfold dictAssign
    rw [if_neg (by simp [any_key_disconnect])]
    refine ⟨resolve_append_of_some _ _ n c₂ h, ?_⟩
    intro hc
    have hk := resolve_some_key _ n c₂ h
    rw [hc, any_key_disconnect] at hk
    exact Bool.false_ne_true hk

theorem reconnect_order_priority_witness :
    resolve (on_mcp_connect (on_mcp_disconnect regW ("a")) ("a") (Except.ok tsSearch)) ("search")
      = some ("b")
    ∧ ("b" : String) ≠ ("a") :=
  (reconnect_order_priority regW ("a") ("search") tsSearch).2.2.2 ("b") (by decide)

/-- Claim C10: registration is atomic with respect to discovery failure: when
list_tools raises, on_mcp_connect leaves the registry unchanged, so resolution
and schema export keep using whatever was previously registered under that
connection identifier. -/
theorem connect_failure_atomic (reg : Registry) (cName e n : String) :
    on_mcp_connect reg cName (Except.error e) = reg
    ∧ resolve (on_mcp_connect reg cName (Except.error e)) n = resolve reg n
    ∧ format_mcp_tools_for_openai (on_mcp_connect reg cName (Except.error e))
        = format_mcp_tools_for_openai reg :=
  ⟨rfl, rfl, rfl⟩

theorem runTurn_cons_none (loads : String → Option Json) (env : InvokeEnv) (reg : Registry)
    (s : GatewayScript) (rest : List GatewayScript) (hist : List Message)
    (h : (call_gemini s).result = none) :
    runTurn loads env reg (s :: rest) hist = (hist, TurnOutcome.gatewayFailure) := by
  simp only [runTurn]
  rw [h]

theorem runTurn_cons_some (loads : String → Option Json) (env : InvokeEnv) (reg : Registry)
    (s : GatewayScript) (rest : List GatewayScript) (hist : List Message) (m : AssistantMessage)
    (h : (call_gemini s).result = some m) :
    runTurn loads env reg (s :: rest) hist
      = if hasToolCalls m then
          runTurn loads env reg rest
            ((hist ++ [Message.assistant m]) ++ (m.tool_calls.getD []).map (toolMessageFor loads env reg))
        else (hist ++ [Message.assistant m], TurnOutcome.success) := by
  simp only [runTurn]
  rw [h]

theorem runTurn_blocks (loads : String → Option Json) (env : InvokeEnv) (reg : Registry)
    (spre : List GatewayScript) (pre : List AssistantMessage)
    (hmap : spre.map (fun s => (call_gemini s).result) = pre.map Option.some)
    (hpre : ∀ m ∈ pre, hasToolCalls m = true) :
    ∀ (tail : List GatewayScript) (hist : List Message),
      runTurn loads env reg (spre ++ tail) hist
        = runTurn loads env reg tail (hist ++ flatten (pre.map (turnBlock loads env reg))) := by
  induction spre generalizing pre with
  | nil =>
    cases pre with
    | nil => intro tail hist; simp [flatten]
    | cons m l => simp at hmap
  | cons s spre ih =>
    cases pre with
    | nil => simp at hmap
    | cons m l =>
      rw [List.map_cons, List.map_cons] at hmap
      have hres : (call_gemini s).result = some m := (List.cons.inj hmap).1
      have hrest := (List.cons.inj hmap).2
      intro tail hist
      have hm : hasToolCalls m = true := hpre m (List.mem_cons_self m l)
      rw [List.cons_append, runTurn_cons_some loads env reg s (spre ++ tail) hist m hres,
        if_pos hm, ih l hrest (fun m₂ hm₂ => hpre m₂ (List.mem_cons_of_mem m hm₂))]
      congr 1
      simp [flatten, turnBlock, List.append_assoc]

theorem runTurn_hist_extends (loads : String → Option Json) (env : InvokeEnv) (reg : Registry)
    (scripts : List GatewayScript) : ∀ hist : List Message,
    hist <+: (runTurn loads env reg scripts hist).1 := by
  induction scripts with
  | nil => intro hist; exact List.prefix_refl hist
  | cons s rest ih =>
    intro hist
    cases hres : (call_gemini s).result with
    | none =>
      rw [runTurn_cons_none loads env reg s rest hist hres]
    | some m =>
      rw [runTurn_cons_some loads env reg s rest hist m hres]
      by_cases hm : hasToolCalls m = true
      · rw [if_pos hm]
        exact (List.prefix_append hist _).trans ((List.prefix_append _ _).trans (ih _))
      · rw [if_neg hm]
        exact List.prefix_append hist _

theorem data_dumpsErrorObj (msg : String) :
    (dumpsErrorObj msg).data
      = ("\x7b\"error\": \"").data ++ escapeData msg.data ++ ("\"\x7d").data := rfl

theorem containsStr_dumpsErrorObj (pre mid post pat : String)
    (h : pat.data <:+: escapeData post.data) :
    ContainsStr (dumpsErrorObj (pre ++ mid ++ post)) pat := by
  show pat.data <:+: (dumpsErrorObj (pre ++ mid ++ post)).data
  rw [data_dumpsErrorObj, String.data_append, escapeData_append, String.data_append,
    escapeData_append]
  have h2 := h.trans
    (List.infix_append
      (("\x7b\"error\": \"").data ++ escapeData pre.data ++ escapeData mid.data)
      (escapeData post.data) (("\"\x7d").data))
  simpa [List.append_assoc] using h2

/-- Claim C7: the schema adapter emits one declaration of type function per
registered tool, in registration order across connections, preserving each
tool's name, description and input schema exactly, with no schema validation. -/
theorem schema_adapter_round_trip (reg : Registry) :
    (format_mcp_tools_for_openai reg).map (fun d => d.type)
      = (flatten (reg.map (fun p => p.2))).map (fun _ => "function")
    ∧ (format_mcp_tools_for_openai reg).map (fun d => d.function.name)
      = (flatten (reg.map (fun p => p.2))).map (fun t => t.name)
    ∧ (format_mcp_tools_for_openai reg).map (fun d => d.function.description)
      = (flatten (reg.map (fun p => p.2))).map (fun t => t.description)
    ∧ (format_mcp_tools_for_openai reg).map (fun d => d.function.parameters)
      = (flatten (reg.map (fun p => p.2))).map (fun t => t.input_schema) := by
  refine ⟨?_, ?_, ?_, ?_⟩ <;>
    (rw [format_mcp_tools_for_openai, List.map_map]; rfl)

/-- Claim C2: within one turn every appended tool message carries the id of a
tool call of the immediately preceding assistant message, tool results are
appended in the declared call order, and the loop terminates the turn exactly
when the returned assistant message carries no tool calls: iterations whose
assistant message has tool calls append the assistant message followed by its
tool messages and loop again, and the first assistant message without tool
calls ends the turn with success. -/
theorem orchestration_history_invariant (loads : String → Option Json) (env : InvokeEnv)
    (reg : Registry) (spre : List GatewayScript) (pre : List AssistantMessage)
    (slast : GatewayScript) (mlast : AssistantMessage) (rest : List GatewayScript)
    (hist : List Message)
    (hmap : spre.map (fun s => (call_gemini s).result) = pre.map Option.some)
    (hpre : ∀ m ∈ pre, hasToolCalls m = true)
    (hlast : (call_gemini slast).result = some mlast)
    (hnocalls : hasToolCalls mlast = false) :
    runTurn loads env reg (spre ++ slast :: rest) hist
      = (hist ++ flatten (pre.map (turnBlock loads env reg)) ++ [Message.assistant mlast],
         TurnOutcome.success)
    ∧ (∀ m : AssistantMessage,
        ((m.tool_calls.getD []).map (toolMessageFor loads env reg)).map toolMsgId
          = (m.tool_calls.getD []).map ToolCall.id) := by
  constructor
  · rw [runTurn_blocks loads env reg spre pre hmap hpre,
      runTurn_cons_some loads env reg slast rest _ mlast hlast,
      if_neg (by simp [hnocalls]), List.append_assoc]
  · intro m
    rw [List.map_map]
    refine List.map_congr_left (fun tc _ => ?_)
    simp only [Function.comp_apply]
    unfold toolMessageFor
    split <;> rfl

theorem orchestration_history_invariant_witness :
    runTurn loadsNone envW [] ([scrOf mCalls] ++ scrOf mDone :: [])
        [Message.system ("sys")]
      = ([Message.system ("sys")] ++ flatten ([mCalls].map (turnBlock loadsNone envW []))
          ++ [Message.assistant mDone],
         TurnOutcome.success) :=
  (orchestration_history_invariant loadsNone envW [] [scrOf mCalls] [mCalls] (scrOf mDone)
    mDone [] [Message.system ("sys")] rfl (by decide) rfl rfl).1

/-- Claim C3 (amended): invoke returns a string for every tool call and, when
the arguments string is not valid JSON, returns an error-result string that
embeds the offending raw argument text in JSON-escaped form (the raw text
appears verbatim exactly when json.dumps escapes none of its characters) and
does not attempt connection resolution, session lookup or tool invocation. -/
theorem invoke_malformed_args_escaped (loads : String → Option Json)
    (env env₂ : InvokeEnv) (reg reg₂ : Registry) (tc : ToolCall)
    (h : loads tc.function.arguments = none) :
    (call_mcp_tool loads env reg tc).1
      = dumpsErrorObj (("Error: Invalid JSON arguments received for tool ") ++ tc.function.name ++
          (": ") ++ tc.function.arguments)
    ∧ (∃ a b, ((call_mcp_tool loads env reg tc).1).data
        = a ++ escapeData tc.function.arguments.data ++ b)
    ∧ (escapeData tc.function.arguments.data = tc.function.arguments.data →
        ContainsStr (call_mcp_tool loads env reg tc).1 tc.function.arguments)
    ∧ call_mcp_tool loads env reg tc = call_mcp_tool loads env₂ reg₂ tc := by
  have hmain : (call_mcp_tool loads env reg tc).1
      = dumpsErrorObj (("Error: Invalid JSON arguments received for tool ") ++ tc.function.name ++
          (": ") ++ tc.function.arguments) := by
    simp [call_mcp_tool, h]
  have hdecomp : ∃ a b, ((call_mcp_tool loads env reg tc).1).data
      = a ++ escapeData tc.function.arguments.data ++ b := by
    refine ⟨("\x7b\"error\": \"").data
        ++ escapeData (("Error: Invalid JSON arguments received for tool ").data)
        ++ escapeData (tc.function.name.data) ++ escapeData ((": ").data), ("\"\x7d").data, ?_⟩
    rw [hmain, data_dumpsErrorObj]
    simp only [String.data_append, escapeData_append, List.append_assoc]
  refine ⟨hmain, hdecomp, ?_, ?_⟩
  · intro heq
    obtain ⟨a, b, hab⟩ := hdecomp
    rw [heq] at hab
    exact ⟨a, b, hab.symm⟩
  · simp [call_mcp_tool, h]

theorem invoke_malformed_args_escaped_witness :
    (call_mcp_tool loadsNone envW [] tcBad).1
      = dumpsErrorObj (("Error: Invalid JSON arguments received for tool ") ++ ("t") ++
          (": ") ++ ("x\"y")) :=
  (invoke_malformed_args_escaped loadsNone envW envW [] [] tcBad rfl).1

/-- Claim C3 counterexample: for the tool call named t whose argument string is
the three characters x, quote, y (not valid JSON, so json.loads raises), the
returned error string escapes the quote, so it does not contain the offending
raw argument text as a substring. -/
theorem invoke_malformed_args_counterexample :
    loadsNone ("x\"y") = none
    ∧ (call_mcp_tool loadsNone envW [] tcBad).1
        = ("\x7b\"error\": \"Error: Invalid JSON arguments received for tool t: x\\\"y\"\x7d")
    ∧ ¬ ContainsStr (call_mcp_tool loadsNone envW [] tcBad).1 ("x\"y") := by
  refine ⟨rfl, by decide, by decide⟩

/-- Claim C4: tool-level failures are recovered locally: a tool name absent
from the registry produces a structured error string mentioning not found, an
unsupported tool-call type produces a structured unsupported-tool-type error
message without invoking anything, and in both cases the loop proceeds to the
next model query instead of aborting. -/
theorem tool_errors_recovered_locally (loads : String → Option Json) (env : InvokeEnv)
    (reg : Registry) (tc : ToolCall) (j : Json)
    (hparse : loads tc.function.arguments = some j)
    (hnf : resolve reg tc.function.name = none) :
    ((call_mcp_tool loads env reg tc).1
        = dumpsErrorObj (("Tool \x27") ++ tc.function.name
            ++ ("\x27 not found in any active MCP connection."))
      ∧ ContainsStr (call_mcp_tool loads env reg tc).1 ("not found"))
    ∧ (∀ tc₂ : ToolCall, tc₂.type ≠ "function" →
        toolMessageFor loads env reg tc₂
          = Message.tool tc₂.id (dumpsErrorObj (("Unsupported tool type: ") ++ tc₂.type))
        ∧ ∀ (loads₂ : String → Option Json) (env₂ : InvokeEnv) (reg₂ : Registry),
            toolMessageFor loads₂ env₂ reg₂ tc₂ = toolMessageFor loads env reg tc₂)
    ∧ (∀ (s : GatewayScript) (m : AssistantMessage) (rest : List GatewayScript)
        (hist : List Message),
        (call_gemini s).result = some m → hasToolCalls m = true →
        runTurn loads env reg (s :: rest) hist
          = runTurn loads env reg rest
              ((hist ++ [Message.assistant m])
                ++ (m.tool_calls.getD []).map (toolMessageFor loads env reg))) := by
  refine ⟨⟨?_, ?_⟩, ?_, ?_⟩
  · simp [call_mcp_tool, hparse, hnf]
  · have hmain : (call_mcp_tool loads env reg tc).1
        = dumpsErrorObj (("Tool \x27") ++ tc.function.name
            ++ ("\x27 not found in any active MCP connection.")) := by
      simp [call_mcp_tool, hparse, hnf]
    rw [hmain]
    exact containsStr_dumpsErrorObj ("Tool \x27") tc.function.name
      ("\x27 not found in any active MCP connection.") ("not found") (by decide)
  · intro tc₂ htype
    constructor
    · unfold toolMessageFor
      rw [if_neg htype]
    · intro loads₂ env₂ reg₂
      unfold toolMessageFor
      rw [if_neg htype, if_neg htype]
  · intro s m rest hist hres hm
    rw [runTurn_cons_some loads env reg s rest hist m hres, if_pos hm]

theorem tool_errors_recovered_locally_witness :
    ContainsStr (call_mcp_tool loadsOk envW [] tcLookup).1 ("not found") :=
  ((tool_errors_recovered_locally loadsOk envW [] tcLookup Json.null rfl rfl).1).2

/-- Claim C5: the gateway is two-phase: the result of a completion is exactly
the assistant message of the second, non-streaming request, including its
tool-call list verbatim, the result never depends on the streamed deltas, the
history after the completion extends the prior history by that message, and a
visible streamed message exists exactly when some delta carries nonempty text. -/
theorem gateway_two_phase_protocol (loads : String → Option Json) (env : InvokeEnv)
    (reg : Registry) (s : GatewayScript) (m : AssistantMessage)
    (hok : s.final = Except.ok m) (hns : s.streamErr = none) :
    (call_gemini s).result = some m
    ∧ (∀ (d₁ d₂ : List (Option String)) (se : Option String)
        (f : Except String AssistantMessage),
        (call_gemini ⟨d₁, se, f⟩).result = (call_gemini ⟨d₂, se, f⟩).result)
    ∧ (∀ (rest : List GatewayScript) (hist : List Message),
        (hist ++ [Message.assistant m]) <+: (runTurn loads env reg (s :: rest) hist).1)
    ∧ ((call_gemini s).message_sent = false ↔ ∀ d ∈ s.deltas, d.getD "" = "") := by
  have hres : (call_gemini s).result = some m := by
    obtain ⟨d, se, f⟩ := s
    simp only at hok hns
    rw [hok, hns]
    rfl
  refine ⟨hres, ?_, ?_, ?_⟩
  · intro d₁ d₂ se f
    cases se with
    | some e => rfl
    | none =>
      cases f with
      | error e => rfl
      | ok m₂ => rfl
  · intro rest hist
    rw [runTurn_cons_some loads env reg s rest hist m hres]
    by_cases hm : hasToolCalls m = true
    · rw [if_pos hm]
      exact (List.prefix_append _ _).trans (runTurn_hist_extends loads env reg rest _)
    · rw [if_neg hm]
  · have hsent : (call_gemini s).message_sent = s.deltas.any (fun d => d.getD "" != "") := by
      obtain ⟨d, se, f⟩ := s
      cases se <;> cases f <;> rfl
    rw [hsent, List.any_eq_false]
    constructor
    · intro hf d hd
      by_contra hne
      exact hf d hd (bne_iff_ne.mpr hne)
    · intro hall d hd h₁
      exact (bne_iff_ne.mp h₁) (hall d hd)

theorem gateway_two_phase_protocol_witness :
    (call_gemini scrW).result = some mDone :=
  (gateway_two_phase_protocol loadsNone envW [] scrW mDone rfl rfl).1

/-- Claim C6: a transport or API fault in either gateway request makes the
whole completion fail, whereupon the loop stops the turn at once (the later
scripts are never consulted, so there is no retry) and the history holds
exactly the user message and the assistant and tool messages appended in the
iterations before the failure. -/
theorem gateway_failure_aborts_turn (loads : String → Option Json) (env : InvokeEnv)
    (reg : Registry) (s : GatewayScript)
    (hfail : s.streamErr ≠ none ∨ ∃ e, s.final = Except.error e) :
    (call_gemini s).result = none
    ∧ (∀ (rest : List GatewayScript) (hist : List Message),
        runTurn loads env reg (s :: rest) hist = (hist, TurnOutcome.gatewayFailure))
    ∧ (∀ (spre : List GatewayScript) (pre : List AssistantMessage)
        (rest : List GatewayScript) (hist₀ : List Message) (u : String),
        spre.map (fun s₂ => (call_gemini s₂).result) = pre.map Option.some →
        (∀ m ∈ pre, hasToolCalls m = true) →
        on_message loads env reg (spre ++ s :: rest) hist₀ u
          = (hist₀ ++ Message.user u :: flatten (pre.map (turnBlock loads env reg)),
             TurnOutcome.gatewayFailure)) := by
  have hres : (call_gemini s).result = none := by
    obtain ⟨d, se, f⟩ := s
    rcases hfail with h₁ | ⟨e, h₂⟩
    · cases se with
      | none => exact absurd rfl h₁
      | some x => rfl
    · cases se with
      | some x => rfl
      | none =>
        simp only at h₂
        rw [h₂]
        rfl
  refine ⟨hres, ?_, ?_⟩
  · intro rest hist
    exact runTurn_cons_none loads env reg s rest hist hres
  · intro spre pre rest hist₀ u hmap hpre
    unfold on_message
    rw [runTurn_blocks loads env reg spre pre hmap hpre,
      runTurn_cons_none loads env reg s rest _ hres, List.append_assoc]
    rfl

theorem gateway_failure_aborts_turn_witness :
    runTurn loadsNone envW [] (scrFail :: []) [] = ([], TurnOutcome.gatewayFailure) :=
  (gateway_failure_aborts_turn loadsNone envW [] scrFail (Or.inl (by decide))).2.1 [] []

/-- Claim C8: on a successful tool invocation both representations are
produced: the UI step output is the result serialized with json.dumps at
indent 2 when the result is a dict or list and its plain str rendering
otherwise, while the content returned to the model is always the plain str of
the result, and the step is not marked as an error. -/
theorem tool_result_representations (loads : String → Option Json) (env : InvokeEnv)
    (reg : Registry) (tc : ToolCall) (j v : Json) (conn : String)
    (hparse : loads tc.function.arguments = some j)
    (hres : resolve reg tc.function.name = some conn)
    (hconn : conn ≠ "")
    (hsess : env.hasSession conn = true)
    (hcall : env.call_tool conn tc.function.name j = Except.ok v) :
    (call_mcp_tool loads env reg tc).1 = env.str_of v
    ∧ (call_mcp_tool loads env reg tc).2.output
        = (if isStructured v then env.dumps_indent2 v else env.str_of v)
    ∧ (call_mcp_tool loads env reg tc).2.is_error = false := by
  refine ⟨?_, ?_, ?_⟩ <;> simp [call_mcp_tool, hparse, hres, hconn, hsess, hcall]

theorem tool_result_representations_witness :
    (call_mcp_tool loadsOk envOk regOne tcLookup).1 = ("42") :=
  (tool_result_representations loadsOk envOk regOne tcLookup Json.null (Json.str ("42")) ("a")
    rfl rfl (by decide) rfl rfl).1

end MCPChat
